import Mathlib

/-!
# xla_compile command line driver and the WhileDoubleBufferRemoval pass

A shallow embedding of `xla/service/xla_compile_main.cc` (the `main` function: flag table,
`--help` short-circuit, flag parsing, option forwarding, exit code) and of
`xla/service/while_double_buffer_removal.h` (the pass class).
-/

set_option autoImplicit false

namespace xla

/-! ## Locals of `main` and the options record -/

/-- The locals of `main` that the flag table binds by pointer (lines 60-70 of
`xla_compile_main.cc`), with the initial values the declarations give them:
`std::string` locals start empty, the two `bool` locals are initialised to `false`. -/
structure MainLocals where
  module_path : String := ""
  output_path : String := ""
  platform : String := ""
  gpu_target_config_path : String := ""
  autotune_results_path : String := ""
  symbol_repository : String := ""
  symbol_id : String := ""
  optimized_symbol_id : String := ""
  use_attached_device : Bool := false
  wait_for_uploads : Bool := false
  result_output_file : String := ""
  deriving DecidableEq, Repr

/-- The fields of `XlaCompileOptions::SymbolRepoOptions` that `main` assigns. -/
structure SymbolRepoOptions where
  symbol_repo : String := ""
  symbol_id : String := ""
  optimized_symbol_id : String := ""
  wait_for_uploads : Bool := false
  deriving DecidableEq, Repr

/-- The fields of `XlaCompileOptions::GpuOptions` that `main` assigns. -/
structure GpuOptions where
  gpu_target_config_path : String := ""
  use_attached_device : Bool := false
  autotune_results_path : String := ""
  deriving DecidableEq, Repr

/-- The fields of `xla::XlaCompileOptions` that `main` assigns (lines 119-132). The type is
declared in `xla/tools/xla_compile_lib.h`; only the fields `main` writes are kept. -/
structure XlaCompileOptions where
  module_path : String := ""
  output_path : String := ""
  platform : String := ""
  result_output_file : String := ""
  repo_options : SymbolRepoOptions := {}
  gpu_options : GpuOptions := {}
  deriving DecidableEq, Repr

/-! ## The flag library (`tsl::Flag`, `tsl::Flags::Parse`) -/

/-- A `tsl::Flag` built by one of the two constructors `main` uses: a flag name together
with the hook that stores a parsed value through the bound pointer. -/
inductive Flag where
  | string (name : String) (hook : String → MainLocals → MainLocals)
  | bool (name : String) (hook : Bool → MainLocals → MainLocals)

/-- The effect of `absl::ConsumePrefix(&arg, expected)`: the rest of `arg` when it starts
with `expected`, nothing otherwise. -/
def ConsumePrefix (arg expected : String) : Option String :=
  if expected.data.isPrefixOf arg.data then some ⟨arg.data.drop expected.data.length⟩
  else none

/-- The comparison `absl::EqualsIgnoreCase` (ASCII case folding). -/
def EqualsIgnoreCase (a b : String) : Bool :=
  a.data.map Char.toLower == b.data.map Char.toLower

/-- What one `tsl::Flag::Parse(arg, &value_parsing_ok)` call reports, together with the
locals after the hook ran. -/
structure FlagParse where
  was_found : Bool
  value_parsing_ok : Bool
  locals : MainLocals
  deriving DecidableEq, Repr

/-- Modelled from the spec: `ParseStringFlag` of `xla/tsl/util/command_line_flags.cc` is not
among the sources. The spec lists the flags without their syntax; the model follows the
invocation shown in `kUsageHeader` (`--module_file=mymodule.mlir`): an argument matches the
flag when it reads `--<name>=<value>`, and the hook receives `<value>`. -/
def ParseStringFlag (arg flag : String) (hook : String → MainLocals → MainLocals)
    (locals : MainLocals) : FlagParse :=
  match (ConsumePrefix arg "--").bind (fun a => (ConsumePrefix a flag).bind
      (fun b => ConsumePrefix b "=")) with
  | some value => ⟨true, true, hook value locals⟩
  | none => ⟨false, true, locals⟩

/-- The text of a boolean flag value: `true`/`1` and `false`/`0`, letters in any case. -/
def boolText (value : String) : Option Bool :=
  if EqualsIgnoreCase value "true" || value == "1" then some true
  else if EqualsIgnoreCase value "false" || value == "0" then some false
  else none

/-- Modelled from the spec: `ParseBoolFlag` of `xla/tsl/util/command_line_flags.cc` is not
among the sources. A bare `--<name>` sets the flag, `--<name>=<text>` sets it to the
boolean `<text>` names, and a `<text>` that names no boolean is found but fails to parse. -/
def ParseBoolFlag (arg flag : String) (hook : Bool → MainLocals → MainLocals)
    (locals : MainLocals) : FlagParse :=
  match (ConsumePrefix arg "--").bind (fun a => ConsumePrefix a flag) with
  | some rest =>
    if rest = "" then ⟨true, true, hook true locals⟩
    else match ConsumePrefix rest "=" with
      | none => ⟨false, true, locals⟩
      | some value =>
        match boolText value with
        | some b => ⟨true, true, hook b locals⟩
        | none => ⟨true, false, locals⟩
  | none => ⟨false, true, locals⟩

/-- The call `tsl::Flag::Parse`: dispatch on the flag's type. -/
def Flag.Parse (f : Flag) (arg : String) (locals : MainLocals) : FlagParse :=
  match f with
  | .string name hook => ParseStringFlag arg name hook locals
  | .bool name hook => ParseBoolFlag arg name hook locals

/-- The inner loop of `tsl::Flags::Parse` for one argument: the flags are tried in table
order, a failed value clears `result`, and the first flag that is found ends the loop. -/
def parseArg : List Flag → String → MainLocals → FlagParse
  | [], _, locals => ⟨false, true, locals⟩
  | f :: rest, arg, locals =>
    let r := f.Parse arg locals
    if r.was_found then r
    else
      let r2 := parseArg rest arg r.locals
      ⟨r2.was_found, r.value_parsing_ok && r2.value_parsing_ok, r2.locals⟩

/-- The state of the outer loop of `tsl::Flags::Parse`. -/
structure ParseState where
  result : Bool
  unknown_flags : List String
  locals : MainLocals
  deriving DecidableEq, Repr

/-- The outer loop of `tsl::Flags::Parse` over `argv[1..]`: a bare `--` ends flag parsing
and passes the rest through; every other argument is offered to the flag table and is
kept as unknown when no flag takes it. -/
def parseArgs (flag_list : List Flag) : List String → ParseState → ParseState
  | [], st => st
  | arg :: rest, st =>
    if arg = "--" then { st with unknown_flags := st.unknown_flags ++ arg :: rest }
    else
      let r := parseArg flag_list arg st.locals
      parseArgs flag_list rest
        { result := st.result && r.value_parsing_ok
          unknown_flags := if r.was_found then st.unknown_flags else st.unknown_flags ++ [arg]
          locals := r.locals }

/-- What `tsl::Flags::Parse(&argc, argv, flag_list)` leaves behind. -/
structure ParseOutcome where
  ok : Bool
  argv : List String
  locals : MainLocals
  deriving DecidableEq, Repr

/-- Modelled from the spec: `tsl::Flags::Parse` of `xla/tsl/util/command_line_flags.cc` is
not among the sources. It walks `argv[1..]`, lets the flag hooks store the values, rewrites
`argv` to the program name followed by the unknown arguments, and succeeds when every value
parsed and the first remaining argument is not `--help`. -/
def Flags.Parse (argv : List String) (flag_list : List Flag) (locals : MainLocals) :
    ParseOutcome :=
  let st := parseArgs flag_list (argv.drop 1) ⟨true, [], locals⟩
  { ok := st.result && !(st.unknown_flags.head? == some "--help")
    argv := argv.take 1 ++ st.unknown_flags
    locals := st.locals }

/-! ## `main` -/

/-- The table `flag_list` of `main` (lines 71-105), in source order. Each hook stores
through the pointer the source passes to the `tsl::Flag` constructor; the flag
`optimized_symbol_reference` is constructed with `&symbol_id`. -/
def flag_list : List Flag := [
  .string "module_file" (fun v l => { l with module_path := v }),
  .string "output_file" (fun v l => { l with output_path := v }),
  .string "platform" (fun v l => { l with platform := v }),
  .string "gpu_target_config" (fun v l => { l with gpu_target_config_path := v }),
  .string "autotune_results" (fun v l => { l with autotune_results_path := v }),
  .string "symbol_repo" (fun v l => { l with symbol_repository := v }),
  .string "symbol_reference" (fun v l => { l with symbol_id := v }),
  .string "optimized_symbol_reference" (fun v l => { l with symbol_id := v }),
  .bool "use_attached_device" (fun v l => { l with use_attached_device := v }),
  .bool "wait_for_uploads" (fun v l => { l with wait_for_uploads := v }),
  .string "result_output_file" (fun v l => { l with result_output_file := v })]

/-- The assignments of lines 119-132: the options record built from the locals. -/
def makeOptions (l : MainLocals) : XlaCompileOptions :=
  { module_path := l.module_path
    output_path := l.output_path
    platform := l.platform
    result_output_file := l.result_output_file
    repo_options :=
      { symbol_repo := l.symbol_repository
        symbol_id := l.symbol_id
        optimized_symbol_id := l.optimized_symbol_id
        wait_for_uploads := l.wait_for_uploads }
    gpu_options :=
      { gpu_target_config_path := l.gpu_target_config_path
        use_attached_device := l.use_attached_device
        autotune_results_path := l.autotune_results_path } }

/-- How a run of `main` ends: it returns an exit code, or the `QCHECK` on the parse result
aborts the process. -/
inductive Exit where
  | returned (code : Int)
  | qcheckFailed
  deriving DecidableEq, Repr

/-- The observable trace of one run of `main`: whether `tsl::Flags::Parse` was called, the
options of every `XlaCompileMain` call in order, and how the run ended. -/
structure MainRun where
  parsed_flags : Bool
  compile_calls : List XlaCompileOptions
  exit : Exit
  deriving DecidableEq, Repr

/-- The function `main` of `xla_compile_main.cc`. `XlaCompileMain` (declared in
`xla/tools/xla_compile_lib.h`) is a parameter; only `result.ok()` of its status is used.
`tsl::port::InitMain` receives the usage text and `argc`/`argv` and touches none of the
bound locals, so it has no counterpart here. -/
def main (XlaCompileMain : XlaCompileOptions → Bool) (argv : List String) : MainRun :=
  if argv.length > 1 ∧ argv[1]? = some "--help" then
    { parsed_flags := false, compile_calls := [], exit := .returned 0 }
  else
    let parsed := Flags.Parse argv flag_list {}
    if !parsed.ok then
      { parsed_flags := true, compile_calls := [], exit := .qcheckFailed }
    else
      let options := makeOptions parsed.locals
      let result := XlaCompileMain options
      if !result then
        { parsed_flags := true, compile_calls := [options], exit := .returned 1 }
      else
        { parsed_flags := true, compile_calls := [options], exit := .returned 0 }

/-! ## What a command line supplies (specification side) -/

/-- The reading of one argument as a flag occurrence: `--name=value` gives the name and the
value text, a bare `--name` gives the name alone, anything else is no flag occurrence. -/
def splitArg (arg : String) : Option (String × Option String) :=
  match arg.data with
  | '-' :: '-' :: body =>
    match body.dropWhile (fun c => c != '=') with
    | [] => some (⟨body⟩, none)
    | _ :: value => some (⟨body.takeWhile (fun c => c != '=')⟩, some ⟨value⟩)
  | _ => none

/-- The arguments that take part in flag parsing: `argv[1..]` up to a bare `--`. -/
def flagArgs (argv : List String) : List String :=
  (argv.drop 1).takeWhile (fun a => a != "--")

/-- The value one argument supplies for the string flag `name`. -/
def stringOccurrence (name arg : String) : Option String :=
  match splitArg arg with
  | some (n, some v) => if n = name then some v else none
  | _ => none

/-- The value one argument supplies for the boolean flag `name`. -/
def boolOccurrence (name arg : String) : Option Bool :=
  match splitArg arg with
  | some (n, none) => if n = name then some true else none
  | some (n, some v) => if n = name then boolText v else none
  | none => none

/-- The value a command line supplies for the string flag `name`: that of its last
occurrence, nothing when the flag does not occur. -/
def suppliedString (name : String) (argv : List String) : Option String :=
  ((flagArgs argv).filterMap (stringOccurrence name)).getLast?

/-- The value a command line supplies for the boolean flag `name`. -/
def suppliedBool (name : String) (argv : List String) : Option Bool :=
  ((flagArgs argv).filterMap (boolOccurrence name)).getLast?

/-- The name a flag was constructed with. -/
def Flag.name : Flag → String
  | .string name _ => name
  | .bool name _ => name

/-- The hook of the flag leaves the observation `π` of the locals alone. -/
def Flag.keeps {α : Type} (π : MainLocals → α) : Flag → Prop
  | .string _ hook => ∀ v l, π (hook v l) = π l
  | .bool _ hook => ∀ v l, π (hook v l) = π l

/-! ## The pass `WhileDoubleBufferRemoval` -/

/-- The class `WhileDoubleBufferRemoval` of `while_double_buffer_removal.h`: its one data
member, `const int64_t module_id_`. -/
structure WhileDoubleBufferRemoval where
  module_id_ : Int
  deriving DecidableEq, Repr

/-- The constructor `explicit WhileDoubleBufferRemoval(int64_t module_id)`, which stores the
identifier in `module_id_`. -/
def WhileDoubleBufferRemoval.create (module_id : Int) : WhileDoubleBufferRemoval :=
  { module_id_ := module_id }

/-- The method `name()`: it returns the literal of lines 39-41. -/
def WhileDoubleBufferRemoval.name (_self : WhileDoubleBufferRemoval) : String :=
  "while-double-buffer-removal"

/-! ### The IR the pass works on

`WhileDoubleBufferRemoval::Run` is declared in the header and defined in a file that is not
among the sources, as are `HloModule` and the instruction classes. What follows is the
design the specification gives for them. The shape of the double-buffer pattern (a `TODO`
in the header) and the rewrite are left open: they are parameters of `Run`. -/

/-- Modelled from the spec: the result shape of an array-valued instruction, "element type
+ dimensions" (data model, Instruction). -/
structure ArrayShape where
  element_type : String
  dimensions : List Nat
  deriving DecidableEq, Repr

/-- Modelled from the spec: the result shape of an instruction; a loop state is
"conceptually a tuple of buffers". -/
inductive Shape where
  | array (shape : ArrayShape)
  | tuple (elements : List ArrayShape)
  deriving DecidableEq, Repr

/-- Modelled from the spec: operation kinds as "a closed tagged-variant" (design notes): the
kinds the specification names (parameter, buffer-allocating op, copy as the pass-through
instruction, tuple and tuple-element, the While construct with the handles of its condition
and body computations) and one case for every other operation. -/
inductive OpKind where
  | parameter (number : Nat)
  | allocate
  | copy
  | tuple
  | getTupleElement (index : Nat)
  | whileLoop (condition body : Nat)
  | other (opcode : String)
  deriving DecidableEq, Repr

/-- Modelled from the spec: an Instruction, "a node with an operation kind, an ordered list
of operand references (to other instructions, within the same computation), and a result
shape"; operands are indices into the owning computation's instruction store. -/
structure Instruction where
  kind : OpKind
  operands : List Nat
  shape : Shape
  deriving DecidableEq, Repr

/-- Modelled from the spec: a Computation, its instructions held in "an arena-indexed
instruction store (instructions referenced by stable index, not by address)", with one root
and the execution context the pass filters on. A slot of the arena is free (`none`) once
its instruction has been removed. -/
structure Computation where
  name : String
  execution_thread : String
  instructions : List (Option Instruction)
  root : Nat
  deriving DecidableEq, Repr

/-- Modelled from the spec: the instruction a stable index refers to, if the slot is in
use. -/
def Computation.instruction (c : Computation) (i : Nat) : Option Instruction :=
  (c.instructions[i]?).join

/-- Modelled from the spec: a Module, "a named collection of Computations; exactly one is
the entry computation"; computations are referenced by handle. -/
structure HloModule where
  name : String
  computations : List Computation
  entry : Nat
  deriving DecidableEq, Repr

/-- The outcome of an operation that may fail (`absl::StatusOr`). -/
inductive StatusOr (α : Type) where
  | ok (value : α)
  | error (message : String)
  deriving DecidableEq, Repr

/-- Modelled from the spec: a candidate of the Loop-Nest Locator, an (outer-While,
inner-While) pair: the computation that holds the outer While and its index there, the
handle of the outer While's body computation and the index of the inner While in it. -/
structure LoopNest where
  computation : Nat
  outer : Nat
  body : Nat
  inner : Nat
  deriving DecidableEq, Repr

/-- Modelled from the spec: a matched double-buffer group, "the two buffer slot indices
(A, B) within the inner loop's state tuple, the instruction inside the body that reads the
current slot, and the instruction that writes the next slot". -/
structure DoubleBufferGroup where
  slot_a : Nat
  slot_b : Nat
  reader : Nat
  writer : Nat
  deriving DecidableEq, Repr

/-- A pass-through instruction forwards a value it does not compute: a copy forwards its
operand, a tuple-element of a tuple instruction forwards that tuple operand. -/
def passThroughSource (c : Computation) (i : Nat) : Option Nat :=
  match c.instruction i with
  | none => none
  | some ins =>
    match ins.kind with
    | .copy => ins.operands[0]?
    | .getTupleElement k =>
      match ins.operands[0]? with
      | none => none
      | some t =>
        match c.instruction t with
        | none => none
        | some tins =>
          match tins.kind with
          | .tuple => tins.operands[k]?
          | _ => none
    | _ => none

/-- The chain of pass-through instructions from instruction `i` back to the instruction
that establishes the storage, which is its last element. -/
def storageChain (c : Computation) : Nat → Nat → List Nat
  | 0, i => [i]
  | fuel + 1, i =>
    match passThroughSource c i with
    | some j => i :: storageChain c fuel j
    | none => [i]

/-- The chain that establishes the storage of slot `slot` of the state the While
instruction `w` starts from: from the tuple operand bound to the slot when the initial
state is a tuple instruction, from the initial state itself otherwise. -/
def slotChain (c : Computation) (w slot : Nat) : Option (List Nat) :=
  match c.instruction w with
  | none => none
  | some wins =>
    match wins.operands[0]? with
    | none => none
    | some t =>
      match c.instruction t with
      | none => none
      | some tins =>
        match tins.kind with
        | .tuple =>
          match tins.operands[slot]? with
          | none => none
          | some j => some (storageChain c c.instructions.length j)
        | _ => some (storageChain c c.instructions.length t)

/-- The instruction establishes storage in the computation that holds it: "a
buffer-allocating op" or the first write by an operation that computes a value. -/
def establishesStorage (c : Computation) (i : Nat) : Bool :=
  match c.instruction i with
  | none => false
  | some ins =>
    match ins.kind with
    | .allocate => true
    | .other _ => true
    | _ => false

/-- The number of operand references to instruction `i` in the computation. -/
def useCount (c : Computation) (i : Nat) : Nat :=
  (c.instructions.map (fun slot => slot.elim 0 (fun ins => ins.operands.count i))).sum

/-- The instruction has one consumer and is not the computation's result: it is "not
reused by any other concurrently-live consumer outside this loop nest". -/
def soleConsumer (c : Computation) (i : Nat) : Bool :=
  useCount c i == 1 && c.root != i

/-- The storage of slot `slot` of the inner loop is established inside the outer loop's body
(and, the chain being in the outer body computation, outside the inner loop), and no other
consumer shares it. -/
def allocatedInsideOuterBody (m : HloModule) (nest : LoopNest) (slot : Nat) : Bool :=
  match m.computations[nest.body]? with
  | none => false
  | some c =>
    match slotChain c nest.inner slot with
    | none => false
    | some chain =>
      match chain.getLast? with
      | none => false
      | some origin => establishesStorage c origin && chain.all (soleConsumer c)

/-- Modelled from the spec: the Allocation-Scope Analyzer (4.3). "The pair is collapsible
only if both A and B are allocated inside the outer loop's body but outside the inner
loop"; a slot whose storage is established outside the outer loop, or shared with another
consumer, rejects the pair. -/
def collapsible (m : HloModule) (nest : LoopNest) (g : DoubleBufferGroup) : Bool :=
  allocatedInsideOuterBody m nest g.slot_a && allocatedInsideOuterBody m nest g.slot_b

/-- The shape of the parameter instruction of a computation. -/
def Computation.parameterShape (c : Computation) : Option Shape :=
  (c.instructions.filterMap id |>.find? (fun ins => ins.kind == OpKind.parameter 0)).map
    (fun ins => ins.shape)

/-- The shape of the root instruction of a computation. -/
def Computation.rootShape (c : Computation) : Option Shape :=
  (c.instruction c.root).map (fun ins => ins.shape)

/-- Modelled from the spec: the structural precondition of the error taxonomy (7). A While
instruction is well formed when its state is a tuple, and its initial state, its condition's
parameter, its body's parameter and its body's root all have the shape of that state. -/
def wellFormedWhile (m : HloModule) (ci i : Nat) : Bool :=
  match m.computations[ci]? with
  | none => false
  | some c =>
    match c.instruction i with
    | none => false
    | some ins =>
      match ins.kind, ins.shape with
      | .whileLoop cond body, .tuple elements =>
        (match ins.operands[0]? with
          | none => false
          | some t => (c.instruction t).map (fun tins => tins.shape) == some (.tuple elements))
        && (match m.computations[cond]? with
          | none => false
          | some cc => cc.parameterShape == some (.tuple elements))
        && (match m.computations[body]? with
          | none => false
          | some bc =>
            bc.parameterShape == some (.tuple elements)
              && bc.rootShape == some (.tuple elements))
      | _, _ => false

/-- Modelled from the spec: the steps the Pass Driver applies to one candidate pair (data
flow of the system overview): the structural check, then Pattern Matcher, then
Allocation-Scope Analyzer, then, "if both pass", the In-Place Rewriter. It returns the
module and whether this pair was rewritten. The matcher and the rewriter are parameters. -/
def processNest (matcher : HloModule → LoopNest → Option DoubleBufferGroup)
    (rewriter : HloModule → LoopNest → DoubleBufferGroup → StatusOr HloModule)
    (m : HloModule) (nest : LoopNest) : StatusOr (HloModule × Bool) :=
  if !(wellFormedWhile m nest.computation nest.outer && wellFormedWhile m nest.body nest.inner)
  then .error "structural precondition violation"
  else
    match matcher m nest with
    | none => .ok (m, false)
    | some g =>
      if collapsible m nest g then
        match rewriter m nest g with
        | .ok rewritten => .ok (rewritten, true)
        | .error message => .error message
      else .ok (m, false)

/-- The shape of a loop state of two equally shaped buffers. -/
def pairState : Shape :=
  .tuple [⟨"f32", [4]⟩, ⟨"f32", [4]⟩]

/-- The same nest with the two buffers of the inner loop allocated in the outer body. -/
def nestOnFreshBuffers : HloModule :=
  { name := "nest_on_fresh_buffers"
    entry := 0
    computations := [
      { name := "entry", execution_thread := "main", root := 1
        instructions := [
          some ⟨.parameter 0, [], pairState⟩,
          some ⟨.whileLoop 1 2, [0], pairState⟩] },
      { name := "outer_condition", execution_thread := "main", root := 1
        instructions := [
          some ⟨.parameter 0, [], pairState⟩,
          some ⟨.other "compare", [0], .array ⟨"pred", []⟩⟩] },
      { name := "outer_body", execution_thread := "main", root := 4
        instructions := [
          some ⟨.parameter 0, [], pairState⟩,
          some ⟨.allocate, [], .array ⟨"f32", [4]⟩⟩,
          some ⟨.allocate, [], .array ⟨"f32", [4]⟩⟩,
          some ⟨.tuple, [1, 2], pairState⟩,
          some ⟨.whileLoop 3 4, [3], pairState⟩] },
      { name := "inner_condition", execution_thread := "main", root := 1
        instructions := [
          some ⟨.parameter 0, [], pairState⟩,
          some ⟨.other "compare", [0], .array ⟨"pred", []⟩⟩] },
      { name := "inner_body", execution_thread := "main", root := 4
        instructions := [
          some ⟨.parameter 0, [], pairState⟩,
          some ⟨.getTupleElement 0, [0], .array ⟨"f32", [4]⟩⟩,
          some ⟨.getTupleElement 1, [0], .array ⟨"f32", [4]⟩⟩,
          some ⟨.other "add", [2], .array ⟨"f32", [4]⟩⟩,
          some ⟨.tuple, [3, 1], pairState⟩] }] }

/-- A matcher that reports slots 0 and 1 of every candidate as a double-buffer group. -/
def matchSlotsZeroOne (_m : HloModule) (_nest : LoopNest) : Option DoubleBufferGroup :=
  some ⟨0, 1, 2, 3⟩

/-- A rewriter whose effect is visible: it renames the module. -/
def renamingRewriter (m : HloModule) (_nest : LoopNest) (_g : DoubleBufferGroup) :
    StatusOr HloModule :=
  .ok { m with name := "rewritten" }

/-! ## Lemmas on the flag library -/

theorem span_eq_iff (n v body : List Char) (hn : '=' ∉ n) :
    body = n ++ '=' :: v ↔
      body.takeWhile (fun c => c != '=') = n ∧ body.dropWhile (fun c => c != '=') = '=' :: v := by
  have hall : ∀ c ∈ n, (c != '=') = true := by
    intro c hc
    have : c ≠ '=' := fun h => hn (h ▸ hc)
    simpa using this
  constructor
  · rintro rfl
    constructor
    · rw [List.takeWhile_append_of_pos hall]
      simp
    · rw [List.dropWhile_append_of_pos hall]
      simp
  · rintro ⟨h1, h2⟩
    rw [← List.takeWhile_append_dropWhile (fun c => c != '=') body, h1, h2]

theorem ConsumePrefix_eq_some_iff (arg p r : String) :
    ConsumePrefix arg p = some r ↔ arg.data = p.data ++ r.data := by
  unfold ConsumePrefix
  constructor
  · intro h
    split at h
    · rename_i hp
      rw [List.isPrefixOf_iff_prefix] at hp
      obtain ⟨t, ht⟩ := hp
      simp only [Option.some.injEq] at h
      rw [← h, ← ht]
      simp
    · simp at h
  · intro h
    rw [h]
    simp

theorem splitArg_value_iff (arg n v : String) :
    splitArg arg = some (n, some v) ↔
      '=' ∉ n.data ∧ arg.data = '-' :: '-' :: (n.data ++ '=' :: v.data) := by
  unfold splitArg
  constructor
  · intro h
    split at h
    · rename_i body hb
      split at h
      · simp at h
      · rename_i c value hd
        simp only [Option.some.injEq, Prod.mk.injEq] at h
        obtain ⟨h1, h2⟩ := h
        have hc : c = '=' := by
          have := List.head_dropWhile_not (fun c => c != '=') body (by rw [hd]; simp)
          simp only [hd, List.head_cons] at this
          simpa using this
        subst hc
        have hn : n.data = body.takeWhile (fun c => c != '=') := by rw [← h1]
        have hv : v.data = value := by rw [← h2]
        refine ⟨?_, ?_⟩
        · rw [hn]
          intro hmem
          have := List.mem_takeWhile_imp hmem
          simp at this
        · rw [hb, hn, hv, ← hd, List.takeWhile_append_dropWhile]
    · simp at h
  · rintro ⟨hn, ha⟩
    have hs := (span_eq_iff n.data v.data (n.data ++ '=' :: v.data) hn).1 rfl
    rw [ha]
    simp only [hs.2, hs.1]

theorem splitArg_bare_iff (arg n : String) :
    splitArg arg = some (n, none) ↔ '=' ∉ n.data ∧ arg.data = '-' :: '-' :: n.data := by
  unfold splitArg
  constructor
  · intro h
    split at h
    · rename_i body hb
      split at h
      · rename_i hd
        simp only [Option.some.injEq, Prod.mk.injEq, and_true] at h
        have hn : n.data = body := by rw [← h]
        refine ⟨?_, by rw [hb, hn]⟩
        rw [hn]
        intro hmem
        rw [List.dropWhile_eq_nil_iff] at hd
        have := hd _ hmem
        simp at this
      · simp at h
    · simp at h
  · rintro ⟨hn, ha⟩
    rw [ha]
    have hd : n.data.dropWhile (fun c => c != '=') = [] := by
      rw [List.dropWhile_eq_nil_iff]
      intro c hc
      have : c ≠ '=' := fun h => hn (h ▸ hc)
      simpa using this
    simp only [hd]

theorem stringChain_eq_some_iff (arg n v : String) :
    (ConsumePrefix arg "--").bind (fun a => (ConsumePrefix a n).bind
      (fun b => ConsumePrefix b "=")) = some v ↔
      arg.data = '-' :: '-' :: (n.data ++ '=' :: v.data) := by
  simp only [Option.bind_eq_some, ConsumePrefix_eq_some_iff]
  constructor
  · rintro ⟨a, ha, b, hb, hv⟩
    rw [ha, hb, hv]
    rfl
  · intro h
    exact ⟨⟨n.data ++ '=' :: v.data⟩, h, ⟨'=' :: v.data⟩, rfl, rfl⟩

theorem boolChain_eq_some_iff (arg n rest : String) :
    (ConsumePrefix arg "--").bind (fun a => ConsumePrefix a n) = some rest ↔
      arg.data = '-' :: '-' :: (n.data ++ rest.data) := by
  simp only [Option.bind_eq_some, ConsumePrefix_eq_some_iff]
  constructor
  · rintro ⟨a, ha, hb⟩
    rw [ha, hb]
    rfl
  · intro h
    exact ⟨⟨n.data ++ rest.data⟩, h, rfl⟩

/-- A string flag takes exactly the arguments that read `--name=value`. -/
theorem ParseStringFlag_eq (arg n : String) (hook : String → MainLocals → MainLocals)
    (l : MainLocals) (hn : '=' ∉ n.data) :
    ParseStringFlag arg n hook l =
      match stringOccurrence n arg with
      | some v => ⟨true, true, hook v l⟩
      | none => ⟨false, true, l⟩ := by
  have key : (ConsumePrefix arg "--").bind (fun a => (ConsumePrefix a n).bind
      (fun b => ConsumePrefix b "=")) = stringOccurrence n arg := by
    ext v
    simp only [Option.mem_def]
    rw [stringChain_eq_some_iff]
    unfold stringOccurrence
    constructor
    · intro h
      have := (splitArg_value_iff arg n v).2 ⟨hn, h⟩
      simp [this]
    · intro h
      split at h
      · rename_i n2 v2 hs
        split at h
        · rename_i hnn
          subst hnn
          simp only [Option.some.injEq] at h
          subst h
          exact ((splitArg_value_iff arg n2 v2).1 hs).2
        · simp at h
      · simp at h
  unfold ParseStringFlag
  rw [key]

/-- A boolean flag takes the bare `--name` and the arguments `--name=text`. -/
theorem ParseBoolFlag_eq (arg n : String) (hook : Bool → MainLocals → MainLocals)
    (l : MainLocals) (hn : '=' ∉ n.data) :
    ParseBoolFlag arg n hook l =
      match splitArg arg with
      | some (n2, none) => if n2 = n then ⟨true, true, hook true l⟩ else ⟨false, true, l⟩
      | some (n2, some v) =>
        if n2 = n then
          match boolText v with
          | some b => ⟨true, true, hook b l⟩
          | none => ⟨true, false, l⟩
        else ⟨false, true, l⟩
      | none => ⟨false, true, l⟩ := by
  unfold ParseBoolFlag
  cases hc : (ConsumePrefix arg "--").bind (fun a => ConsumePrefix a n) with
  | none =>
    simp only
    split
    · rename_i n2 hs
      split
      · rename_i hnn
        subst hnn
        have := ((splitArg_bare_iff arg n2).1 hs).2
        have h2 := (boolChain_eq_some_iff arg n2 "").2 (by rw [this]; simp)
        rw [hc] at h2
        simp at h2
      · rfl
    · rename_i n2 v hs
      split
      · rename_i hnn
        subst hnn
        have := ((splitArg_value_iff arg n2 v).1 hs).2
        have h2 := (boolChain_eq_some_iff arg n2 ⟨'=' :: v.data⟩).2 this
        rw [hc] at h2
        simp at h2
      · rfl
    · rfl
  | some rest =>
    have ha := (boolChain_eq_some_iff arg n rest).1 hc
    simp only
    by_cases hr : rest = ""
    · subst hr
      have hs := (splitArg_bare_iff arg n).2 ⟨hn, by rw [ha]; simp⟩
      simp [hs]
    · rw [if_neg hr]
      cases hv : ConsumePrefix rest "=" with
      | some value =>
        have hrd := (ConsumePrefix_eq_some_iff rest "=" value).1 hv
        have hs := (splitArg_value_iff arg n value).2 ⟨hn, by rw [ha, hrd]; rfl⟩
        simp [hs]
      | none =>
        simp only
        split
        · rename_i n2 hs
          split
          · rename_i hnn
            subst hnn
            have := ((splitArg_bare_iff arg n2).1 hs).2
            rw [ha] at this
            simp only [List.cons.injEq, true_and, List.append_right_eq_self] at this
            exact absurd (String.ext this) hr
          · rfl
        · rename_i n2 v hs
          split
          · rename_i hnn
            subst hnn
            have := ((splitArg_value_iff arg n2 v).1 hs).2
            rw [ha] at this
            simp only [List.cons.injEq, true_and, List.append_cancel_left_eq] at this
            have h2 := (ConsumePrefix_eq_some_iff rest "=" v).2 (by rw [this]; rfl)
            rw [hv] at h2
            simp at h2
          · rfl
        · rfl

theorem Flag.Parse_keeps {α : Type} (π : MainLocals → α) (f : Flag) (arg : String)
    (l : MainLocals) (hf : f.keeps π) : π (f.Parse arg l).locals = π l := by
  cases f with
  | string n hook =>
    simp only [Flag.Parse, ParseStringFlag]
    split
    · exact hf _ _
    · rfl
  | bool n hook =>
    simp only [Flag.Parse, ParseBoolFlag]
    split
    · split
      · exact hf _ _
      · split
        · rfl
        · split
          · exact hf _ _
          · rfl
    · rfl

theorem Flag.Parse_not_found (f : Flag) (arg : String) (l : MainLocals)
    (h : (f.Parse arg l).was_found = false) : (f.Parse arg l).locals = l := by
  cases f with
  | string n hook =>
    simp only [Flag.Parse, ParseStringFlag] at h ⊢
    split at h
    · simp at h
    · rename_i hc
      simp [hc]
  | bool n hook =>
    simp only [Flag.Parse, ParseBoolFlag] at h ⊢
    split
    · rename_i rest hc
      simp only [hc] at h
      split
      · rename_i hr
        simp [hr] at h
      · rename_i hr
        simp only [hr, if_false] at h
        split
        · rfl
        · rename_i value hv
          simp only [hv] at h
          split
          · rename_i b hb
            simp [hb] at h
          · rfl
    · rfl

/-- A flag that takes an argument finds its own name in it. -/
theorem Flag.Parse_found_name (f : Flag) (arg : String) (l : MainLocals)
    (hn : '=' ∉ f.name.data) (h : (f.Parse arg l).was_found = true) :
    ∃ o, splitArg arg = some (f.name, o) := by
  cases f with
  | string n hook =>
    simp only [Flag.Parse, Flag.name] at h hn ⊢
    rw [ParseStringFlag_eq arg n hook l hn] at h
    unfold stringOccurrence at h
    rcases hs : splitArg arg with _ | ⟨n2, _ | v⟩
    · simp [hs] at h
    · simp [hs] at h
    · by_cases hnn : n2 = n
      · exact ⟨some v, by rw [hnn]⟩
      · simp [hs, hnn] at h
  | bool n hook =>
    simp only [Flag.Parse, Flag.name] at h hn ⊢
    rw [ParseBoolFlag_eq arg n hook l hn] at h
    rcases hs : splitArg arg with _ | ⟨n2, _ | v⟩
    · simp [hs] at h
    · by_cases hnn : n2 = n
      · exact ⟨none, by rw [hnn]⟩
      · simp [hs, hnn] at h
    · by_cases hnn : n2 = n
      · exact ⟨some v, by rw [hnn]⟩
      · simp [hs, hnn] at h

/-- Flags whose hooks leave `π` alone leave it alone when an argument is parsed. -/
theorem parseArg_keeps {α : Type} (π : MainLocals → α) (fl : List Flag) (arg : String)
    (l : MainLocals) (hfl : ∀ f ∈ fl, f.keeps π) : π (parseArg fl arg l).locals = π l := by
  induction fl generalizing l with
  | nil => rfl
  | cons f rest ih =>
    have hf := Flag.Parse_keeps π f arg l (hfl f (List.mem_cons_self _ _))
    simp only [parseArg]
    split
    · exact hf
    · simp only
      rw [ih _ (fun g hg => hfl g (List.mem_cons_of_mem _ hg)), hf]

/-- In a flag table where only one string flag writes the observation `π`, and no flag
before it bears its name, parsing an argument stores what the argument supplies. -/
theorem parseArg_string_target (π : MainLocals → String) (pre post : List Flag) (n : String)
    (hook : String → MainLocals → MainLocals) (arg : String) (l : MainLocals)
    (hpre : ∀ f ∈ pre, f.keeps π ∧ f.name ≠ n ∧ '=' ∉ f.name.data)
    (hn : '=' ∉ n.data) (hhook : ∀ v l, π (hook v l) = v)
    (hpost : ∀ f ∈ post, f.keeps π) :
    π (parseArg (pre ++ Flag.string n hook :: post) arg l).locals =
      (stringOccurrence n arg).getD (π l) := by
  induction pre generalizing l with
  | nil =>
    simp only [List.nil_append, parseArg, Flag.Parse, ParseStringFlag_eq arg n hook l hn]
    cases stringOccurrence n arg with
    | none => simpa using parseArg_keeps π post arg l hpost
    | some v => simpa using hhook v l
  | cons f pre ih =>
    obtain ⟨hk, hne, hfn⟩ := hpre f (List.mem_cons_self _ _)
    have ih2 := fun l => ih l (fun g hg => hpre g (List.mem_cons_of_mem _ hg))
    simp only [List.cons_append, parseArg]
    split
    · rename_i hfound
      obtain ⟨o, ho⟩ := Flag.Parse_found_name f arg l hfn hfound
      rw [Flag.Parse_keeps π f arg l hk]
      unfold stringOccurrence
      rw [ho]
      cases o <;> simp [hne]
    · rename_i hfound
      simp only [Bool.not_eq_true] at hfound
      simp only [Flag.Parse_not_found f arg l hfound]
      exact ih2 l

/-- The same for a boolean flag. -/
theorem parseArg_bool_target (π : MainLocals → Bool) (pre post : List Flag) (n : String)
    (hook : Bool → MainLocals → MainLocals) (arg : String) (l : MainLocals)
    (hpre : ∀ f ∈ pre, f.keeps π ∧ f.name ≠ n ∧ '=' ∉ f.name.data)
    (hn : '=' ∉ n.data) (hhook : ∀ v l, π (hook v l) = v)
    (hpost : ∀ f ∈ post, f.keeps π) :
    π (parseArg (pre ++ Flag.bool n hook :: post) arg l).locals =
      (boolOccurrence n arg).getD (π l) := by
  induction pre generalizing l with
  | nil =>
    simp only [List.nil_append, parseArg, Flag.Parse, ParseBoolFlag_eq arg n hook l hn]
    unfold boolOccurrence
    have hp := parseArg_keeps π post arg l hpost
    rcases hs : splitArg arg with _ | ⟨n2, _ | v⟩
    · simpa using hp
    · by_cases hnn : n2 = n
      · simpa [hnn] using hhook true l
      · simpa [hnn] using hp
    · by_cases hnn : n2 = n
      · cases hb : boolText v with
        | none => simp [hnn, hb]
        | some b => simpa [hnn, hb] using hhook b l
      · simpa [hnn] using hp
  | cons f pre ih =>
    obtain ⟨hk, hne, hfn⟩ := hpre f (List.mem_cons_self _ _)
    have ih2 := fun l => ih l (fun g hg => hpre g (List.mem_cons_of_mem _ hg))
    simp only [List.cons_append, parseArg]
    split
    · rename_i hfound
      obtain ⟨o, ho⟩ := Flag.Parse_found_name f arg l hfn hfound
      rw [Flag.Parse_keeps π f arg l hk]
      unfold boolOccurrence
      rw [ho]
      cases o <;> simp [hne]
    · rename_i hfound
      simp only [Bool.not_eq_true] at hfound
      simp only [Flag.Parse_not_found f arg l hfound]
      exact ih2 l

/-- The loop over the arguments folds the per-argument effect over `flagArgs`. -/
theorem parseArgs_locals {α : Type} (π : MainLocals → α) (occ : String → Option α)
    (fl : List Flag)
    (hstep : ∀ arg l, π (parseArg fl arg l).locals = (occ arg).getD (π l))
    (args : List String) (st : ParseState) :
    π (parseArgs fl args st).locals =
      (((args.takeWhile (fun a => a != "--")).filterMap occ).getLast?).getD (π st.locals) := by
  induction args generalizing st with
  | nil => rfl
  | cons a rest ih =>
    simp only [parseArgs]
    by_cases ha : a = "--"
    · simp [ha]
    · have hne : (a != "--") = true := by simpa using ha
      have htw : List.takeWhile (fun a => a != "--") (a :: rest) =
          a :: List.takeWhile (fun a => a != "--") rest := by
        rw [List.takeWhile_cons]
        simp [ha]
      rw [if_neg ha, ih, htw, List.filterMap_cons]
      simp only [hstep]
      cases hocc : occ a with
      | none => simp
      | some v =>
        simp only [Option.getD_some]
        cases hl : (List.filterMap occ (List.takeWhile (fun a => a != "--") rest)).getLast? with
        | none =>
          rw [List.getLast?_eq_none_iff] at hl
          simp [hl]
        | some w =>
          rw [List.getLast?_cons, hl]
          simp

/-- The locals after `tsl::Flags::Parse` hold, for an observation that one flag of the
table writes, what the command line supplies for that flag. -/
theorem Flags.Parse_locals {α : Type} (π : MainLocals → α) (occ : String → Option α)
    (fl : List Flag)
    (hstep : ∀ arg l, π (parseArg fl arg l).locals = (occ arg).getD (π l))
    (argv : List String) (l : MainLocals) :
    π (Flags.Parse argv fl l).locals = (((flagArgs argv).filterMap occ).getLast?).getD (π l) := by
  simp only [Flags.Parse, flagArgs]
  exact parseArgs_locals π occ fl hstep _ _

theorem flag_list_module_path (arg : String) (l : MainLocals) :
    (parseArg flag_list arg l).locals.module_path =
      (stringOccurrence "module_file" arg).getD l.module_path :=
  parseArg_string_target (fun l => l.module_path) (flag_list.take 0) _ "module_file" _ arg l
    (by simp [flag_list, Flag.keeps, Flag.name]) (by decide) (fun _ _ => rfl)
    (by simp [Flag.keeps])

theorem flag_list_output_path (arg : String) (l : MainLocals) :
    (parseArg flag_list arg l).locals.output_path =
      (stringOccurrence "output_file" arg).getD l.output_path :=
  parseArg_string_target (fun l => l.output_path) (flag_list.take 1) _ "output_file" _ arg l
    (by simp [flag_list, Flag.keeps, Flag.name]) (by decide) (fun _ _ => rfl)
    (by simp [Flag.keeps])

theorem flag_list_platform (arg : String) (l : MainLocals) :
    (parseArg flag_list arg l).locals.platform =
      (stringOccurrence "platform" arg).getD l.platform :=
  parseArg_string_target (fun l => l.platform) (flag_list.take 2) _ "platform" _ arg l
    (by simp [flag_list, Flag.keeps, Flag.name]) (by decide) (fun _ _ => rfl)
    (by simp [Flag.keeps])

theorem flag_list_gpu_target_config_path (arg : String) (l : MainLocals) :
    (parseArg flag_list arg l).locals.gpu_target_config_path =
      (stringOccurrence "gpu_target_config" arg).getD l.gpu_target_config_path :=
  parseArg_string_target (fun l => l.gpu_target_config_path) (flag_list.take 3) _ "gpu_target_config" _ arg l
    (by simp [flag_list, Flag.keeps, Flag.name]) (by decide) (fun _ _ => rfl)
    (by simp [Flag.keeps])

theorem flag_list_autotune_results_path (arg : String) (l : MainLocals) :
    (parseArg flag_list arg l).locals.autotune_results_path =
      (stringOccurrence "autotune_results" arg).getD l.autotune_results_path :=
  parseArg_string_target (fun l => l.autotune_results_path) (flag_list.take 4) _ "autotune_results" _ arg l
    (by simp [flag_list, Flag.keeps, Flag.name]) (by decide) (fun _ _ => rfl)
    (by simp [Flag.keeps])

theorem flag_list_symbol_repository (arg : String) (l : MainLocals) :
    (parseArg flag_list arg l).locals.symbol_repository =
      (stringOccurrence "symbol_repo" arg).getD l.symbol_repository :=
  parseArg_string_target (fun l => l.symbol_repository) (flag_list.take 5) _ "symbol_repo" _ arg l
    (by simp [flag_list, Flag.keeps, Flag.name]) (by decide) (fun _ _ => rfl)
    (by simp [Flag.keeps])

theorem flag_list_use_attached_device (arg : String) (l : MainLocals) :
    (parseArg flag_list arg l).locals.use_attached_device =
      (boolOccurrence "use_attached_device" arg).getD l.use_attached_device :=
  parseArg_bool_target (fun l => l.use_attached_device) (flag_list.take 8) _ "use_attached_device" _ arg l
    (by simp [flag_list, Flag.keeps, Flag.name]) (by decide) (fun _ _ => rfl)
    (by simp [Flag.keeps])

theorem flag_list_wait_for_uploads (arg : String) (l : MainLocals) :
    (parseArg flag_list arg l).locals.wait_for_uploads =
      (boolOccurrence "wait_for_uploads" arg).getD l.wait_for_uploads :=
  parseArg_bool_target (fun l => l.wait_for_uploads) (flag_list.take 9) _ "wait_for_uploads" _ arg l
    (by simp [flag_list, Flag.keeps, Flag.name]) (by decide) (fun _ _ => rfl)
    (by simp [Flag.keeps])

theorem flag_list_result_output_file (arg : String) (l : MainLocals) :
    (parseArg flag_list arg l).locals.result_output_file =
      (stringOccurrence "result_output_file" arg).getD l.result_output_file :=
  parseArg_string_target (fun l => l.result_output_file) (flag_list.take 10) _ "result_output_file" _ arg l
    (by simp [flag_list, Flag.keeps, Flag.name]) (by decide) (fun _ _ => rfl)
    (by simp [Flag.keeps])

/-- The loop over the arguments only appends to the unknown arguments. -/
theorem parseArgs_unknown_flags (fl : List Flag) (args : List String) (st : ParseState) :
    ∃ t, (parseArgs fl args st).unknown_flags = st.unknown_flags ++ t := by
  induction args generalizing st with
  | nil => exact ⟨[], by simp [parseArgs]⟩
  | cons a rest ih =>
    simp only [parseArgs]
    split
    · exact ⟨a :: rest, rfl⟩
    · obtain ⟨t, ht⟩ := ih
        { result := st.result && (parseArg fl a st.locals).value_parsing_ok
          unknown_flags :=
            if (parseArg fl a st.locals).was_found then st.unknown_flags
            else st.unknown_flags ++ [a]
          locals := (parseArg fl a st.locals).locals }
      rw [ht]
      split
      · exact ⟨t, rfl⟩
      · exact ⟨a :: t, by simp⟩

theorem parseArg_help_not_found (l : MainLocals) :
    (parseArg flag_list "--help" l).was_found = false := by
  rfl

/-- A command line whose first argument is `--help` does not parse successfully. -/
theorem Flags.Parse_help_first (argv : List String) (l : MainLocals)
    (h : argv[1]? = some "--help") : (Flags.Parse argv flag_list l).ok = false := by
  match argv, h with
  | a0 :: a1 :: rest, h =>
    simp only [List.getElem?_cons_succ, List.getElem?_cons_zero, Option.some.injEq] at h
    subst h
    simp only [Flags.Parse, List.drop_succ_cons, List.drop_zero, parseArgs]
    rw [if_neg (by decide)]
    obtain ⟨t, ht⟩ := parseArgs_unknown_flags flag_list rest
      { result := true && (parseArg flag_list "--help" l).value_parsing_ok
        unknown_flags :=
          if (parseArg flag_list "--help" l).was_found then [] else [] ++ ["--help"]
        locals := (parseArg flag_list "--help" l).locals }
    rw [ht, parseArg_help_not_found]
    simp

/-! ## The claims on `main` -/

/-- C4: for every command line whose first argument is not `--help` and whose flags parse
successfully, `main` calls `XlaCompileMain` once and returns 0 when the call reports an OK
status and 1 when it reports a non-OK status. -/
theorem main_exit_code (XlaCompileMain : XlaCompileOptions → Bool) (argv : List String)
    (hhelp : argv[1]? ≠ some "--help")
    (hparse : (Flags.Parse argv flag_list {}).ok = true) :
    ∃ options, (main XlaCompileMain argv).compile_calls = [options] ∧
      (XlaCompileMain options = true → (main XlaCompileMain argv).exit = Exit.returned 0) ∧
      (XlaCompileMain options = false → (main XlaCompileMain argv).exit = Exit.returned 1) := by
  refine ⟨makeOptions (Flags.Parse argv flag_list {}).locals, ?_⟩
  unfold main
  rw [if_neg (fun h => hhelp h.2)]
  simp only [hparse, Bool.not_true, Bool.false_eq_true, if_false]
  cases hr : XlaCompileMain (makeOptions (Flags.Parse argv flag_list {}).locals) <;> simp

/-- Witness of C4 on a command line that names a module file and the CPU platform, with a
compilation that fails. -/
theorem main_exit_code_witness :
    ["xla_compile", "--module_file=m.mlir", "--platform=cpu"][1]? ≠ some "--help" ∧
    (Flags.Parse ["xla_compile", "--module_file=m.mlir", "--platform=cpu"] flag_list {}).ok =
      true ∧
    ∃ options,
      (main (fun _ => false) ["xla_compile", "--module_file=m.mlir",
        "--platform=cpu"]).compile_calls = [options] ∧
      (main (fun _ => false) ["xla_compile", "--module_file=m.mlir", "--platform=cpu"]).exit =
        Exit.returned 1 := by
  refine ⟨by decide, by decide, ?_⟩
  obtain ⟨options, hcalls, _, h⟩ := main_exit_code (fun _ => false)
    ["xla_compile", "--module_file=m.mlir", "--platform=cpu"] (by decide) (by decide)
  exact ⟨options, hcalls, h rfl⟩

/-- C6: for every command line that parses successfully, the options passed to
`XlaCompileMain` carry, for each of the flags `module_file`, `output_file`, `platform`,
`result_output_file`, `symbol_repo`, `gpu_target_config`, `autotune_results`,
`use_attached_device` and `wait_for_uploads`, the value the command line supplies for the
flag, and the empty string (string flags) or `false` (boolean flags) when it supplies
none. -/
theorem main_forwards_flags (XlaCompileMain : XlaCompileOptions → Bool) (argv : List String)
    (hparse : (Flags.Parse argv flag_list {}).ok = true) :
    ∃ options, (main XlaCompileMain argv).compile_calls = [options] ∧
      options.module_path = (suppliedString "module_file" argv).getD "" ∧
      options.output_path = (suppliedString "output_file" argv).getD "" ∧
      options.platform = (suppliedString "platform" argv).getD "" ∧
      options.result_output_file = (suppliedString "result_output_file" argv).getD "" ∧
      options.repo_options.symbol_repo = (suppliedString "symbol_repo" argv).getD "" ∧
      options.gpu_options.gpu_target_config_path =
        (suppliedString "gpu_target_config" argv).getD "" ∧
      options.gpu_options.autotune_results_path =
        (suppliedString "autotune_results" argv).getD "" ∧
      options.gpu_options.use_attached_device =
        (suppliedBool "use_attached_device" argv).getD false ∧
      options.repo_options.wait_for_uploads =
        (suppliedBool "wait_for_uploads" argv).getD false := by
  have hhelp : argv[1]? ≠ some "--help" := by
    intro h
    rw [Flags.Parse_help_first argv {} h] at hparse
    exact Bool.false_ne_true hparse
  refine ⟨makeOptions (Flags.Parse argv flag_list {}).locals, ?_, ?_⟩
  · unfold main
    rw [if_neg (fun h => hhelp h.2)]
    simp only [hparse, Bool.not_true, Bool.false_eq_true, if_false]
    cases hr : XlaCompileMain (makeOptions (Flags.Parse argv flag_list {}).locals) <;> simp
  · exact ⟨Flags.Parse_locals (fun l => l.module_path) _ _ flag_list_module_path argv {},
      Flags.Parse_locals (fun l => l.output_path) _ _ flag_list_output_path argv {},
      Flags.Parse_locals (fun l => l.platform) _ _ flag_list_platform argv {},
      Flags.Parse_locals (fun l => l.result_output_file) _ _ flag_list_result_output_file argv {},
      Flags.Parse_locals (fun l => l.symbol_repository) _ _ flag_list_symbol_repository argv {},
      Flags.Parse_locals (fun l => l.gpu_target_config_path) _ _
        flag_list_gpu_target_config_path argv {},
      Flags.Parse_locals (fun l => l.autotune_results_path) _ _
        flag_list_autotune_results_path argv {},
      Flags.Parse_locals (fun l => l.use_attached_device) _ _
        flag_list_use_attached_device argv {},
      Flags.Parse_locals (fun l => l.wait_for_uploads) _ _ flag_list_wait_for_uploads argv {}⟩

/-- Witness of C6 on a command line that supplies some of the flags, one of them twice. -/
theorem main_forwards_flags_witness :
    (Flags.Parse ["xla_compile", "--module_file=m.mlir", "--platform=cpu", "--platform=gpu",
        "--use_attached_device", "--wait_for_uploads=false", "extra"] flag_list {}).ok = true ∧
    ∃ options, (main (fun _ => true) ["xla_compile", "--module_file=m.mlir", "--platform=cpu",
        "--platform=gpu", "--use_attached_device", "--wait_for_uploads=false",
        "extra"]).compile_calls = [options] ∧
      options.module_path = "m.mlir" ∧ options.output_path = "" ∧ options.platform = "gpu" ∧
      options.gpu_options.use_attached_device = true ∧
      options.repo_options.wait_for_uploads = false := by
  refine ⟨by decide, ?_⟩
  obtain ⟨options, h, h1, h2, h3, _, _, _, _, h8, h9⟩ := main_forwards_flags (fun _ => true)
    ["xla_compile", "--module_file=m.mlir", "--platform=cpu", "--platform=gpu",
      "--use_attached_device", "--wait_for_uploads=false", "extra"] (by decide)
  refine ⟨options, h, ?_, ?_, ?_, ?_, ?_⟩
  · rw [h1]; decide
  · rw [h2]; decide
  · rw [h3]; decide
  · rw [h8]; decide
  · rw [h9]; decide

/-- C9: for every command line with at least one argument whose first argument is exactly
`--help`, `main` returns 0 without calling `tsl::Flags::Parse` and without calling
`XlaCompileMain`, whatever the remaining arguments are. -/
theorem main_help (XlaCompileMain : XlaCompileOptions → Bool) (argv : List String)
    (hargc : argv.length > 1) (hfirst : argv[1]? = some "--help") :
    main XlaCompileMain argv =
      { parsed_flags := false, compile_calls := [], exit := Exit.returned 0 } := by
  unfold main
  rw [if_pos ⟨hargc, hfirst⟩]

/-- Witness of C9 on a command line with flags after `--help`. -/
theorem main_help_witness :
    ["xla_compile", "--help", "--platform=cpu", "--unknown"].length > 1 ∧
    ["xla_compile", "--help", "--platform=cpu", "--unknown"][1]? = some "--help" ∧
    main (fun _ => false) ["xla_compile", "--help", "--platform=cpu", "--unknown"] =
      { parsed_flags := false, compile_calls := [], exit := Exit.returned 0 } :=
  ⟨by decide, by decide,
    main_help (fun _ => false) ["xla_compile", "--help", "--platform=cpu", "--unknown"]
      (by decide) (by decide)⟩

/-- C5 fails on the code: with `--optimized_symbol_reference=opt` on the command line, the
options passed to `XlaCompileMain` have an empty `optimized_symbol_id`; the value lands in
`symbol_id`. -/
theorem main_optimized_symbol_reference_lost :
    (main (fun _ => true) ["xla_compile", "--optimized_symbol_reference=opt"]).compile_calls.map
      (fun o => (o.repo_options.symbol_id, o.repo_options.optimized_symbol_id)) =
      [("opt", "")] := by
  decide

/-- C8 fails on the code: two command lines that differ only in the presence of
`--optimized_symbol_reference` pass different `symbol_id`s to `XlaCompileMain`. -/
theorem main_symbol_id_overwritten :
    (main (fun _ => true) ["xla_compile", "--symbol_reference=sym"]).compile_calls.map
      (fun o => o.repo_options.symbol_id) = ["sym"] ∧
    (main (fun _ => true) ["xla_compile", "--symbol_reference=sym",
      "--optimized_symbol_reference=opt"]).compile_calls.map
      (fun o => o.repo_options.symbol_id) = ["opt"] := by
  decide

/-! ## The claims on the pass -/

/-- The analyzer accepts a pair whose buffers are allocated in the outer body, and the
driver then hands the pair to the rewriter. -/
theorem processNest_rewrites_fresh_buffers :
    collapsible nestOnFreshBuffers ⟨0, 1, 2, 4⟩ ⟨0, 1, 2, 3⟩ = true ∧
    processNest matchSlotsZeroOne renamingRewriter nestOnFreshBuffers ⟨0, 1, 2, 4⟩ =
      StatusOr.ok ({ nestOnFreshBuffers with name := "rewritten" }, true) := by
  decide

/-- C7: for every module identifier given to the constructor, `name()` returns the string
`while-double-buffer-removal`; the identifier has no effect on the name. -/
theorem name_stable (module_id : Int) :
    (WhileDoubleBufferRemoval.create module_id).name = "while-double-buffer-removal" :=
  rfl

end xla
